import Mathlib

/-!
Shallow embedding of `src/audidata/transforms/midi.py` (classes `PianoRoll`
and `Note2Token`).  Python floats are modelled as exact rationals, numpy
roll arrays as total functions from (frame index, pitch) to values, and
Python exceptions as `Except` error values.
-/

namespace Audidata

/-- Python's built-in `round`: round half to even, as used by
`round(onset_time * self.fps)` in the source. -/
def pyRound (q : ℚ) : ℤ :=
  if q - ⌊q⌋ < 1/2 then ⌊q⌋
  else if 1/2 < q - ⌊q⌋ then ⌊q⌋ + 1
  else if ⌊q⌋ % 2 = 0 then ⌊q⌋ else ⌊q⌋ + 1

lemma floor_le_pyRound (q : ℚ) : ⌊q⌋ ≤ pyRound q := by
  unfold pyRound; split_ifs <;> omega

lemma pyRound_le_floor_add_one (q : ℚ) : pyRound q ≤ ⌊q⌋ + 1 := by
  unfold pyRound; split_ifs <;> omega

lemma pyRound_nonneg {q : ℚ} (h : 0 ≤ q) : 0 ≤ pyRound q :=
  le_trans (Int.floor_nonneg.mpr h) (floor_le_pyRound q)

lemma pyRound_mono {a b : ℚ} (h : a ≤ b) : pyRound a ≤ pyRound b := by
  rcases lt_or_le ⌊a⌋ ⌊b⌋ with hf | hf
  · have h1 := pyRound_le_floor_add_one a
    have h2 := floor_le_pyRound b
    omega
  · have hf2 : ⌊a⌋ ≤ ⌊b⌋ := Int.floor_mono h
    have hfe : ⌊b⌋ = ⌊a⌋ := le_antisymm hf hf2
    have hab : a - ⌊a⌋ ≤ b - ⌊a⌋ := by linarith
    unfold pyRound
    rw [hfe]
    split_ifs <;> first | omega | linarith

/-- The note record used by the source (`pretty_midi.Note`): pitch,
velocity, and start/end times in seconds. -/
structure Note where
  pitch : ℕ
  start : ℚ
  «end» : ℚ
  velocity : ℕ
deriving DecidableEq

/-- A piano-roll array, modelled as a total function from (frame index,
pitch) to the stored value.  The source allocates
`np.zeros((clip_frames, pitches_num))`. -/
def Roll : Type := ℤ → ℕ → ℚ

/-- `np.zeros(...)`: every cell is 0. -/
def zeroRoll : Roll := fun _ _ => 0

/-- Single-cell write `roll[t, p] = v`. -/
def setCell (r : Roll) (t : ℤ) (p : ℕ) (v : ℚ) : Roll :=
  fun t' p' => if t' = t ∧ p' = p then v else r t' p'

/-- Slice write `roll[lo : hi, p] = v` on an array with `cf` rows.  numpy
clamps a slice to the valid rows; for the nonnegative bounds produced by
the source this is the intersection with `[0, cf)`. -/
def sliceSet (r : Roll) (lo hi cf : ℤ) (p : ℕ) (v : ℚ) : Roll :=
  fun t p' => if p' = p ∧ lo ≤ t ∧ t < hi ∧ 0 ≤ t ∧ t < cf then v else r t p'

/-- The mutable state built up inside `PianoRoll.__call__`: the four rolls
plus the accumulated `clip_notes` list. -/
structure St where
  frame_roll : Roll
  onset_roll : Roll
  offset_roll : Roll
  velocity_roll : Roll
  clip_notes : List Note

/-- The state right after allocation: four zero rolls, no clip notes. -/
def zeroSt : St :=
  { frame_roll := zeroRoll, onset_roll := zeroRoll, offset_roll := zeroRoll,
    velocity_roll := zeroRoll, clip_notes := [] }

/-- Python exceptions that `PianoRoll.__call__` can raise. -/
inductive PyErr where
  /-- `NameError`: the zero-duration branch evaluates `1. / fps` but no
  name `fps` is in scope (the attribute is `self.fps`). -/
  | nameError (msg : String)
  /-- `TypeError`: `raise "..."` with a plain string is rejected by
  Python 3 (exceptions must derive from BaseException). -/
  | typeError (msg : String)
  /-- `NotImplementedError` from the final `else` branch. -/
  | notImplementedError
  /-- `AttributeError`: `self.classes_num` does not exist on `PianoRoll`. -/
  | attributeError (msg : String)
deriving DecidableEq

/-- One iteration of the note loop in `PianoRoll.__call__`
(`src/audidata/transforms/midi.py`).  The comparisons `... < math.inf`
of the source are omitted: every rational is finite. -/
def processNote (fps : ℕ) (clip_duration : ℚ) (clip_frames : ℤ)
    (start_time : ℚ) (st : St) (note : Note) : Except PyErr St :=
  let onset_time : ℚ := note.start - start_time
  let offset_time : ℚ := note.«end» - start_time
  let pitch := note.pitch
  let velocity := note.velocity
  if offset_time < 0 then Except.ok st
  else if clip_duration < onset_time then Except.ok st
  else if offset_time = onset_time then
    -- `offset_time = onset_time + (1. / fps)`: the bare name `fps` is
    -- undefined inside `__call__`, so this line raises NameError.
    Except.error (PyErr.nameError "name fps is not defined")
  else
    let clip_note : Note :=
      { pitch := pitch, start := onset_time, «end» := offset_time,
        velocity := velocity }
    let st1 : St := { st with clip_notes := st.clip_notes ++ [clip_note] }
    if offset_time < onset_time then
      -- `raise "offset should not be smaller than onset!"`: raising a
      -- plain string is itself a TypeError in Python 3.
      Except.error (PyErr.typeError "exceptions must derive from BaseException")
    else if onset_time < 0 ∧ 0 ≤ offset_time ∧ offset_time ≤ clip_duration then
      Except.ok { st1 with
        offset_roll := setCell st1.offset_roll (pyRound (offset_time * fps)) pitch 1,
        frame_roll := sliceSet st1.frame_roll 0 (pyRound (offset_time * fps) + 1)
          clip_frames pitch 1 }
    else if onset_time < 0 ∧ clip_duration < offset_time then
      Except.ok { st1 with
        frame_roll := sliceSet st1.frame_roll 0 clip_frames clip_frames pitch 1 }
    else if (0 ≤ onset_time ∧ onset_time ≤ clip_duration) ∧
            (0 ≤ offset_time ∧ offset_time ≤ clip_duration) then
      Except.ok { st1 with
        onset_roll := setCell st1.onset_roll (pyRound (onset_time * fps)) pitch 1,
        velocity_roll := setCell st1.velocity_roll (pyRound (onset_time * fps))
          pitch ((velocity : ℚ) / 128),
        offset_roll := setCell st1.offset_roll (pyRound (offset_time * fps)) pitch 1,
        frame_roll := sliceSet st1.frame_roll (pyRound (onset_time * fps))
          (pyRound (offset_time * fps) + 1) clip_frames pitch 1 }
    else if (0 ≤ onset_time ∧ onset_time ≤ clip_duration) ∧
            clip_duration < offset_time then
      Except.ok { st1 with
        onset_roll := setCell st1.onset_roll (pyRound (onset_time * fps)) pitch 1,
        velocity_roll := setCell st1.velocity_roll (pyRound (onset_time * fps))
          pitch ((velocity : ℚ) / 128),
        frame_roll := sliceSet st1.frame_roll (pyRound (onset_time * fps))
          clip_frames clip_frames pitch 1 }
    else Except.error PyErr.notImplementedError

/-- The whole note loop: stop at the first raised exception. -/
def processNotes (fps : ℕ) (clip_duration : ℚ) (clip_frames : ℤ)
    (start_time : ℚ) : St → List Note → Except PyErr St
  | st, [] => Except.ok st
  | st, n :: ns =>
    match processNote fps clip_duration clip_frames start_time st n with
    | Except.error e => Except.error e
    | Except.ok st2 => processNotes fps clip_duration clip_frames start_time st2 ns

/-- Project the successful state out of a loop result (zero state on
error; only used in statements that also assert success). -/
def okSt (r : Except PyErr St) : St :=
  match r with
  | Except.ok st => st
  | Except.error _ => zeroSt

/-- The `data` dict threaded through the transforms: the four input
fields read by `PianoRoll.__call__` and, as optional fields, the five
keys that `data.update(...)` adds on success. -/
structure Record where
  note : List Note
  pedal : List Unit
  start_time : ℚ
  clip_duration : ℚ
  onset_roll : Option Roll
  offset_roll : Option Roll
  frame_roll : Option Roll
  velocity_roll : Option Roll
  clip_note : Option (List Note)

/-- The sort key comparison of
`clip_notes.sort(key=lambda note: (note.start, note.pitch, note.end, note.velocity))`:
lexicographic order on the 4-tuple. -/
def noteKeyLE (a b : Note) : Bool :=
  decide (a.start < b.start ∨ (a.start = b.start ∧
    (a.pitch < b.pitch ∨ (a.pitch = b.pitch ∧
      (a.«end» < b.«end» ∨ (a.«end» = b.«end» ∧ a.velocity ≤ b.velocity))))))

/-- `PianoRoll.__call__` as a state transformer on the caller-visible
`data` record: returns the record as the caller sees it afterwards plus
the raised exception, if any.  `data.update(...)` runs only after the
whole loop, so on an exception the record is returned unchanged. -/
def pianoRollRun (fps pitches_num : ℕ) (soft_target : Bool)
    (data : Record) : Record × Option PyErr :=
  if soft_target then
    -- `np.zeros((clip_frames, self.classes_num))`: `PianoRoll` defines
    -- no attribute `classes_num`, so this raises AttributeError.
    (data, some (PyErr.attributeError
      "PianoRoll object has no attribute classes_num"))
  else
    match processNotes fps data.clip_duration
        (pyRound ((fps : ℚ) * data.clip_duration) + 1)
        data.start_time zeroSt data.note with
    | Except.error e => (data, some e)
    | Except.ok st =>
      ({ data with
          onset_roll := some st.onset_roll,
          offset_roll := some st.offset_roll,
          frame_roll := some st.frame_roll,
          velocity_roll := some st.velocity_roll,
          clip_note := some (st.clip_notes.mergeSort noteKeyLE) }, none)

/-- The five-way classification of the `elif` chain on lines 72-113 of
the source (invalid ordering, Cases A-D, and the final
`NotImplementedError` branch as Case E). -/
inductive NoteCase where
  | invalidOrdering
  | caseA
  | caseB
  | caseC
  | caseD
  | caseE
deriving DecidableEq

/-- Which branch of the `elif` chain a (clip-relative) onset/offset pair
selects; mirrors the chain literally, with `... < math.inf` omitted
because rationals are finite. -/
def classify (clip_duration onset_time offset_time : ℚ) : NoteCase :=
  if offset_time < onset_time then NoteCase.invalidOrdering
  else if onset_time < 0 ∧ 0 ≤ offset_time ∧ offset_time ≤ clip_duration then
    NoteCase.caseA
  else if onset_time < 0 ∧ clip_duration < offset_time then NoteCase.caseB
  else if (0 ≤ onset_time ∧ onset_time ≤ clip_duration) ∧
          (0 ≤ offset_time ∧ offset_time ≤ clip_duration) then NoteCase.caseC
  else if (0 ≤ onset_time ∧ onset_time ≤ clip_duration) ∧
          clip_duration < offset_time then NoteCase.caseD
  else NoteCase.caseE

/-! ### Note2Token -/

/-- The word alphabet emitted by `Note2Token.__call__`.  The source
builds strings (`"<sos>"`, `"name=note_on"`, `"time={}"`, ...); the
embedding keeps them symbolic.  `eos` exists in the alphabet but is
never emitted: the source closes the sequence with `"<sos>"` again. -/
inductive Word where
  | sos
  | eos
  | name_note_on
  | name_note_off
  | time (t : ℚ)
  | pitch (p : ℕ)
  | velocity (v : ℕ)
deriving DecidableEq

/-- The words contributed by one clip note: the `note_on` group when its
onset lies in `[0, clip_duration]`, then the `note_off` group when its
offset does. -/
def noteWords (clip_duration : ℚ) (note : Note) : List Word :=
  (if 0 ≤ note.start ∧ note.start ≤ clip_duration then
    [Word.name_note_on, Word.time note.start, Word.pitch note.pitch,
     Word.velocity note.velocity]
   else []) ++
  (if 0 ≤ note.«end» ∧ note.«end» ≤ clip_duration then
    [Word.name_note_off, Word.time note.«end», Word.pitch note.pitch]
   else [])

/-- The full word sequence: start marker, the per-note loop (written as
the source's fold that appends to `words`), and the closing marker
(again `<sos>`). -/
def noteWordSeq (clip_duration : ℚ) (notes : List Note) : List Word :=
  (notes.foldl (fun words note =>
    (words ++
      (if 0 ≤ note.start ∧ note.start ≤ clip_duration then
        [Word.name_note_on, Word.time note.start, Word.pitch note.pitch,
         Word.velocity note.velocity]
       else [])) ++
      (if 0 ≤ note.«end» ∧ note.«end» ≤ clip_duration then
        [Word.name_note_off, Word.time note.«end», Word.pitch note.pitch]
       else [])) [Word.sos]) ++ [Word.sos]

/-- `librosa.util.fix_length`: truncate to `size` or right-pad with
`pad` (zero for both the token and the mask array). -/
def fix_length (xs : List ℤ) (size : ℕ) (pad : ℤ) : List ℤ :=
  if size ≤ xs.length then xs.take size
  else xs ++ List.replicate (size - xs.length) pad

/-- The four fields `Note2Token.__call__` adds to the data dict. -/
structure TokenOut where
  word : List Word
  token : List ℤ
  mask : List ℤ
  tokens_num : ℕ

/-- `Note2Token.__call__`: words, tokens via the external `stoi`, an
all-ones mask, both fixed to `max_tokens`, and the true token count. -/
def note2TokenCall (stoi : Word → ℤ) (max_tokens : ℕ) (clip_duration : ℚ)
    (clip_note : List Note) : TokenOut :=
  let words := noteWordSeq clip_duration clip_note
  let tokens := words.map stoi
  let tokens_num := tokens.length
  let masks := tokens.map (fun _ => (1 : ℤ))
  { word := words,
    token := fix_length tokens max_tokens 0,
    mask := fix_length masks max_tokens 0,
    tokens_num := tokens_num }

/-! ## Theorems -/

/-- C1 (amended): for a note whose clip-relative onset and offset both lie
in `[0, clip_duration]` with `onset_time < offset_time`, the Case C branch
sets `frame_roll[t, pitch] = 1` exactly for
`round(onset_time*fps) ≤ t ≤ round(offset_time*fps)`, sets `onset_roll` to
1 exactly at `round(onset_time*fps)`, and `offset_roll` to 1 exactly at
`round(offset_time*fps)`.  (Zero-duration notes never reach this branch:
the normalization step raises NameError, see the counterexample.) -/
theorem caseC_rolls_exact (fps : ℕ) (clip_duration start_time : ℚ) (n : Note)
    (t : ℤ)
    (h1 : 0 ≤ n.start - start_time)
    (h2 : n.«end» - start_time ≤ clip_duration)
    (h3 : n.start - start_time < n.«end» - start_time) :
    Except.isOk (processNote fps clip_duration
      (pyRound ((fps : ℚ) * clip_duration) + 1) start_time zeroSt n) = true ∧
    (okSt (processNote fps clip_duration
        (pyRound ((fps : ℚ) * clip_duration) + 1) start_time zeroSt n)).frame_roll
        t n.pitch =
      (if pyRound ((n.start - start_time) * fps) ≤ t ∧
          t ≤ pyRound ((n.«end» - start_time) * fps) then 1 else 0) ∧
    (okSt (processNote fps clip_duration
        (pyRound ((fps : ℚ) * clip_duration) + 1) start_time zeroSt n)).onset_roll
        t n.pitch =
      (if t = pyRound ((n.start - start_time) * fps) then 1 else 0) ∧
    (okSt (processNote fps clip_duration
        (pyRound ((fps : ℚ) * clip_duration) + 1) start_time zeroSt n)).offset_roll
        t n.pitch =
      (if t = pyRound ((n.«end» - start_time) * fps) then 1 else 0) := by
  have hA : ¬(n.«end» - start_time < 0) := by linarith
  have hB : ¬(clip_duration < n.start - start_time) := by linarith
  have hC : ¬(n.«end» - start_time = n.start - start_time) := ne_of_gt h3
  have hD : ¬(n.«end» - start_time < n.start - start_time) := not_lt.mpr h3.le
  have hE : ¬(n.start - start_time < 0 ∧ 0 ≤ n.«end» - start_time ∧
      n.«end» - start_time ≤ clip_duration) := by
    rintro ⟨hx, -⟩; linarith
  have hF : ¬(n.start - start_time < 0 ∧ clip_duration < n.«end» - start_time) := by
    rintro ⟨hx, -⟩; linarith
  have hG : (0 ≤ n.start - start_time ∧ n.start - start_time ≤ clip_duration) ∧
      0 ≤ n.«end» - start_time ∧ n.«end» - start_time ≤ clip_duration :=
    ⟨⟨h1, by linarith⟩, by linarith, h2⟩
  have hOn : 0 ≤ pyRound ((n.start - start_time) * fps) :=
    pyRound_nonneg (mul_nonneg h1 (Nat.cast_nonneg fps))
  have hOff : pyRound ((n.«end» - start_time) * fps) <
      pyRound ((fps : ℚ) * clip_duration) + 1 := by
    have hm : (n.«end» - start_time) * fps ≤ (fps : ℚ) * clip_duration := by
      rw [mul_comm ((fps : ℚ)) clip_duration]
      exact mul_le_mul_of_nonneg_right h2 (Nat.cast_nonneg fps)
    have := pyRound_mono hm
    omega
  simp only [processNote]
  rw [if_neg hA, if_neg hB, if_neg hC, if_neg hD, if_neg hE, if_neg hF, if_pos hG]
  refine ⟨rfl, ?_, ?_, ?_⟩
  · simp only [okSt, sliceSet, zeroSt, zeroRoll, and_true, true_and]
    split_ifs <;> first | rfl | omega
  · simp only [okSt, setCell, zeroSt, zeroRoll, and_true, true_and]
  · simp only [okSt, setCell, zeroSt, zeroRoll, and_true, true_and]

/-- Witness for C1's theorem at fps = 100, clip_duration = 2,
start_time = 0, a note from 0.5s to 1.0s at pitch 60: frames 50..100 are
active, onset at 50, offset at 100, and frame 150 stays 0. -/
theorem caseC_rolls_exact_witness :
    (okSt (processNote 100 2 (pyRound (((100 : ℕ) : ℚ) * 2) + 1) 0 zeroSt
      { pitch := 60, start := 1/2, «end» := 1, velocity := 100 })).frame_roll
      75 60 = 1 ∧
    (okSt (processNote 100 2 (pyRound (((100 : ℕ) : ℚ) * 2) + 1) 0 zeroSt
      { pitch := 60, start := 1/2, «end» := 1, velocity := 100 })).onset_roll
      50 60 = 1 ∧
    (okSt (processNote 100 2 (pyRound (((100 : ℕ) : ℚ) * 2) + 1) 0 zeroSt
      { pitch := 60, start := 1/2, «end» := 1, velocity := 100 })).offset_roll
      100 60 = 1 ∧
    (okSt (processNote 100 2 (pyRound (((100 : ℕ) : ℚ) * 2) + 1) 0 zeroSt
      { pitch := 60, start := 1/2, «end» := 1, velocity := 100 })).frame_roll
      150 60 = 0 := by
  refine ⟨?_, ?_, ?_, ?_⟩
  · exact (caseC_rolls_exact 100 2 0
      { pitch := 60, start := 1/2, «end» := 1, velocity := 100 } 75
      (by norm_num) (by norm_num) (by norm_num)).2.1.trans (by norm_num [pyRound])
  · exact (caseC_rolls_exact 100 2 0
      { pitch := 60, start := 1/2, «end» := 1, velocity := 100 } 50
      (by norm_num) (by norm_num) (by norm_num)).2.2.1.trans (by norm_num [pyRound])
  · exact (caseC_rolls_exact 100 2 0
      { pitch := 60, start := 1/2, «end» := 1, velocity := 100 } 100
      (by norm_num) (by norm_num) (by norm_num)).2.2.2.trans (by norm_num [pyRound])
  · exact (caseC_rolls_exact 100 2 0
      { pitch := 60, start := 1/2, «end» := 1, velocity := 100 } 150
      (by norm_num) (by norm_num) (by norm_num)).2.1.trans (by norm_num [pyRound])

/-- C1 counterexample to the claim as stated: the zero-duration note
0.5s-0.5s lies entirely inside `[0, 1]`, yet the call raises NameError at
the normalization line (`1. / fps` with `fps` undefined) and marks no
onset: `onset_roll[50, 60]` stays 0 instead of becoming 1. -/
theorem caseC_zero_duration_counterexample :
    processNote 100 1 101 0 zeroSt
      { pitch := 60, start := 1/2, «end» := 1/2, velocity := 100 } =
      Except.error (PyErr.nameError "name fps is not defined") ∧
    (okSt (processNote 100 1 101 0 zeroSt
      { pitch := 60, start := 1/2, «end» := 1/2, velocity := 100 })).onset_roll
      50 60 = 0 := by
  refine ⟨?_, ?_⟩ <;> simp only [processNote] <;>
    norm_num [okSt, zeroSt, zeroRoll]

/-- C2: a surviving zero-duration note (here 0.5s-0.5s inside a 1s clip)
does not get normalized to `onset_time + 1/fps`; the normalization line
reads the undefined bare name `fps` (the attribute is `self.fps`) and the
call raises NameError, so the note is dropped with the whole call. -/
theorem zero_duration_raises_nameError :
    processNote 100 1 101 0 zeroSt
      { pitch := 60, start := 1/2, «end» := 1/2, velocity := 100 } =
      Except.error (PyErr.nameError "name fps is not defined") ∧
    (okSt (processNote 100 1 101 0 zeroSt
      { pitch := 60, start := 1/2, «end» := 1/2, velocity := 100 })).clip_notes
      = [] := by
  refine ⟨?_, ?_⟩ <;> simp only [processNote] <;>
    norm_num [okSt, zeroSt, zeroRoll]

/-- C3: `soft_target=True` is not a no-op: the allocation
`np.zeros((clip_frames, self.classes_num))` reads the non-existent
attribute `classes_num` and every call raises AttributeError, while the
same record under `soft_target=False` succeeds. -/
theorem soft_target_raises_attributeError :
    pianoRollRun 100 128 true
      { note := [], pedal := [], start_time := 0, clip_duration := 1,
        onset_roll := none, offset_roll := none, frame_roll := none,
        velocity_roll := none, clip_note := none } =
      ({ note := [], pedal := [], start_time := 0, clip_duration := 1,
         onset_roll := none, offset_roll := none, frame_roll := none,
         velocity_roll := none, clip_note := none },
       some (PyErr.attributeError
         "PianoRoll object has no attribute classes_num")) ∧
    (pianoRollRun 100 128 false
      { note := [], pedal := [], start_time := 0, clip_duration := 1,
        onset_roll := none, offset_roll := none, frame_roll := none,
        velocity_roll := none, clip_note := none }).2 = none := by
  exact ⟨rfl, rfl⟩

/-- C5: a note whose clip-relative offset is strictly smaller than its
onset (here onset 0.5s, offset 0.25s) makes the call fail at the ordering
check and write no roll cells — but via `raise "..."` with a plain
string, which Python 3 turns into `TypeError: exceptions must derive from
BaseException` instead of the descriptive message. -/
theorem invalid_ordering_raises_typeError :
    processNote 100 1 101 0 zeroSt
      { pitch := 60, start := 1/2, «end» := 1/4, velocity := 100 } =
      Except.error (PyErr.typeError
        "exceptions must derive from BaseException") ∧
    (okSt (processNote 100 1 101 0 zeroSt
      { pitch := 60, start := 1/2, «end» := 1/4, velocity := 100 })).frame_roll
      50 60 = 0 := by
  refine ⟨?_, ?_⟩ <;> simp only [processNote] <;>
    norm_num [okSt, zeroSt, zeroRoll]

/-- C4: any onset/offset pair that survives the discard step
(`0 ≤ offset_time`, `onset_time ≤ clip_duration`) and is correctly
ordered (`onset_time ≤ offset_time`) selects one of Cases A-D; the
`NotImplementedError` branch (Case E) is unreachable for (finite)
rational times. -/
theorem classify_never_caseE (clip_duration onset_time offset_time : ℚ)
    (h1 : 0 ≤ offset_time) (h2 : onset_time ≤ clip_duration)
    (h3 : onset_time ≤ offset_time) :
    classify clip_duration onset_time offset_time = NoteCase.caseA ∨
    classify clip_duration onset_time offset_time = NoteCase.caseB ∨
    classify clip_duration onset_time offset_time = NoteCase.caseC ∨
    classify clip_duration onset_time offset_time = NoteCase.caseD := by
  unfold classify
  split_ifs with ha hb hc hd he
  · exact absurd h3 (not_le.mpr ha)
  · tauto
  · tauto
  · tauto
  · tauto
  · exfalso
    push_neg at hb hc hd he
    rcases lt_or_le onset_time 0 with hz | hz
    · exact absurd (hc hz) (not_le.mpr (hb hz h1))
    · exact absurd (he ⟨hz, h2⟩) (not_le.mpr (hd ⟨hz, h2⟩ h1))

/-- Witness for C4's theorem: a note from 0.25s to 0.5s in a 1s clip is
classified (into Case C). -/
theorem classify_never_caseE_witness :
    classify 1 (1/4) (1/2) = NoteCase.caseA ∨
    classify 1 (1/4) (1/2) = NoteCase.caseB ∨
    classify 1 (1/4) (1/2) = NoteCase.caseC ∨
    classify 1 (1/4) (1/2) = NoteCase.caseD :=
  classify_never_caseE 1 (1/4) (1/2) (by norm_num) (by norm_num) (by norm_num)

/-- C6: a note with `onset_time < 0` and `offset_time > clip_duration`
(Case B) turns the whole `frame_roll` column of its pitch to 1 (every row
`0 ≤ t < clip_frames`) and leaves `onset_roll`, `offset_roll` and
`velocity_roll` untouched. -/
theorem caseB_full_column (fps : ℕ) (clip_duration start_time : ℚ) (st : St)
    (n : Note) (t : ℤ)
    (hcd : 0 ≤ clip_duration)
    (h1 : n.start - start_time < 0)
    (h2 : clip_duration < n.«end» - start_time) :
    Except.isOk (processNote fps clip_duration
      (pyRound ((fps : ℚ) * clip_duration) + 1) start_time st n) = true ∧
    (okSt (processNote fps clip_duration
        (pyRound ((fps : ℚ) * clip_duration) + 1) start_time st n)).frame_roll
        t n.pitch =
      (if 0 ≤ t ∧ t < pyRound ((fps : ℚ) * clip_duration) + 1 then 1
       else st.frame_roll t n.pitch) ∧
    (okSt (processNote fps clip_duration
        (pyRound ((fps : ℚ) * clip_duration) + 1) start_time st n)).onset_roll
      = st.onset_roll ∧
    (okSt (processNote fps clip_duration
        (pyRound ((fps : ℚ) * clip_duration) + 1) start_time st n)).offset_roll
      = st.offset_roll ∧
    (okSt (processNote fps clip_duration
        (pyRound ((fps : ℚ) * clip_duration) + 1) start_time st n)).velocity_roll
      = st.velocity_roll := by
  have hA : ¬(n.«end» - start_time < 0) := by linarith
  have hB : ¬(clip_duration < n.start - start_time) := by linarith
  have hC : ¬(n.«end» - start_time = n.start - start_time) := by
    intro he; linarith
  have hD : ¬(n.«end» - start_time < n.start - start_time) := by
    intro he; linarith
  have hE : ¬(n.start - start_time < 0 ∧ 0 ≤ n.«end» - start_time ∧
      n.«end» - start_time ≤ clip_duration) := by
    rintro ⟨-, -, hx⟩; linarith
  have hF : n.start - start_time < 0 ∧ clip_duration < n.«end» - start_time :=
    ⟨h1, h2⟩
  simp only [processNote]
  rw [if_neg hA, if_neg hB, if_neg hC, if_neg hD, if_neg hE, if_pos hF]
  refine ⟨rfl, ?_, rfl, rfl, rfl⟩
  simp only [okSt, sliceSet, true_and, and_self]
  split_ifs <;> first | rfl | omega

/-- Witness for C6's theorem: fps = 100, clip window `[0, 1]`, a note
from -0.5s to 2s at pitch 70: frame 30 of the column is 1 and the other
three rolls stay zero. -/
theorem caseB_full_column_witness :
    Except.isOk (processNote 100 1 (pyRound (((100 : ℕ) : ℚ) * 1) + 1) 0
      zeroSt { pitch := 70, start := -(1/2), «end» := 2, velocity := 90 })
      = true ∧
    (okSt (processNote 100 1 (pyRound (((100 : ℕ) : ℚ) * 1) + 1) 0 zeroSt
      { pitch := 70, start := -(1/2), «end» := 2, velocity := 90 })).frame_roll
      30 70 = 1 ∧
    (okSt (processNote 100 1 (pyRound (((100 : ℕ) : ℚ) * 1) + 1) 0 zeroSt
      { pitch := 70, start := -(1/2), «end» := 2, velocity := 90 })).onset_roll
      = zeroSt.onset_roll ∧
    (okSt (processNote 100 1 (pyRound (((100 : ℕ) : ℚ) * 1) + 1) 0 zeroSt
      { pitch := 70, start := -(1/2), «end» := 2, velocity := 90 })).offset_roll
      = zeroSt.offset_roll := by
  have h := caseB_full_column 100 1 0 zeroSt
    { pitch := 70, start := -(1/2), «end» := 2, velocity := 90 } 30
    (by norm_num) (by norm_num) (by norm_num)
  exact ⟨h.1, h.2.1.trans (by norm_num [pyRound]), h.2.2.1, h.2.2.2.1⟩

/-- C7: a note whose clip-relative offset is negative (it ended before
the clip starts) is skipped by the first `continue`: the state — all
four rolls and the `clip_notes` list — is returned unchanged. -/
theorem negative_offset_skips_note (fps : ℕ) (clip_duration : ℚ)
    (clip_frames : ℤ) (start_time : ℚ) (st : St) (n : Note)
    (h : n.«end» - start_time < 0) :
    processNote fps clip_duration clip_frames start_time st n =
      Except.ok st := by
  simp only [processNote]
  rw [if_pos h]

/-- Witness for C7's theorem: a note from 3s to 4s against a clip
starting at 5s is dropped and the zero state survives untouched. -/
theorem negative_offset_skips_note_witness :
    processNote 100 1 101 5 zeroSt
      { pitch := 60, start := 3, «end» := 4, velocity := 80 } =
      Except.ok zeroSt :=
  negative_offset_skips_note 100 1 101 5 zeroSt
    { pitch := 60, start := 3, «end» := 4, velocity := 80 } (by norm_num)

/-- The word loop of `Note2Token.__call__` appends, per note, exactly the
words of `noteWords`. -/
lemma wordLoop_eq_flatMap (clip_duration : ℚ) :
    ∀ (notes : List Note) (acc : List Word),
      notes.foldl (fun words note =>
        (words ++
          (if 0 ≤ note.start ∧ note.start ≤ clip_duration then
            [Word.name_note_on, Word.time note.start, Word.pitch note.pitch,
             Word.velocity note.velocity]
           else [])) ++
          (if 0 ≤ note.«end» ∧ note.«end» ≤ clip_duration then
            [Word.name_note_off, Word.time note.«end», Word.pitch note.pitch]
           else [])) acc
        = acc ++ notes.flatMap (noteWords clip_duration)
  | [], acc => by simp
  | n :: ns, acc => by
    rw [List.foldl_cons, wordLoop_eq_flatMap clip_duration ns,
      List.flatMap_cons]
    simp [noteWords, List.append_assoc]

/-- C8: the `Note2Token` word sequence starts with `<sos>`, ends with the
same `<sos>` marker (not `<eos>`), and for each note the four `note_on`
words appear iff its onset lies in `[0, clip_duration]` while the three
`note_off` words appear iff its offset does. -/
theorem note2Token_word_structure (clip_duration : ℚ) (notes : List Note) :
    (noteWordSeq clip_duration notes).head? = some Word.sos ∧
    (noteWordSeq clip_duration notes).getLast? = some Word.sos ∧
    noteWordSeq clip_duration notes =
      Word.sos :: (notes.flatMap (noteWords clip_duration) ++ [Word.sos]) ∧
    ∀ n : Note,
      (Word.name_note_on ∈ noteWords clip_duration n ↔
        0 ≤ n.start ∧ n.start ≤ clip_duration) ∧
      (Word.name_note_off ∈ noteWords clip_duration n ↔
        0 ≤ n.«end» ∧ n.«end» ≤ clip_duration) := by
  have he : noteWordSeq clip_duration notes =
      Word.sos :: (notes.flatMap (noteWords clip_duration) ++ [Word.sos]) := by
    unfold noteWordSeq
    rw [wordLoop_eq_flatMap clip_duration notes [Word.sos]]
    simp
  refine ⟨?_, ?_, he, ?_⟩
  · rw [he]; rfl
  · rw [he, show Word.sos :: (notes.flatMap (noteWords clip_duration) ++ [Word.sos])
        = (Word.sos :: notes.flatMap (noteWords clip_duration)) ++ [Word.sos] from rfl]
    exact List.getLast?_concat _
  · intro n
    by_cases hA : 0 ≤ n.start ∧ n.start ≤ clip_duration <;>
      by_cases hB : 0 ≤ n.«end» ∧ n.«end» ≤ clip_duration <;>
      simp [noteWords, hA, hB]

/-- `librosa.util.fix_length` in closed form: take `size` elements, then
right-pad with `pad` up to `size`. -/
lemma fix_length_eq (xs : List ℤ) (size : ℕ) (pad : ℤ) :
    fix_length xs size pad =
      xs.take size ++ List.replicate (size - xs.length) pad := by
  unfold fix_length
  split_ifs with h
  · simp [Nat.sub_eq_zero_of_le h]
  · rw [List.take_of_length_le (le_of_not_le h)]

/-- C9: `Note2Token` always returns token and mask sequences of length
exactly `max_tokens` — the first `max_tokens` ids (so overlong sequences
are silently truncated, never an error) padded on the right with zeros —
while `tokens_num` always reports the true pre-padding word count. -/
theorem note2Token_fixed_length (stoi : Word → ℤ) (max_tokens : ℕ)
    (clip_duration : ℚ) (notes : List Note) :
    (note2TokenCall stoi max_tokens clip_duration notes).token.length
      = max_tokens ∧
    (note2TokenCall stoi max_tokens clip_duration notes).mask.length
      = max_tokens ∧
    (note2TokenCall stoi max_tokens clip_duration notes).tokens_num
      = (noteWordSeq clip_duration notes).length ∧
    (note2TokenCall stoi max_tokens clip_duration notes).token =
      ((noteWordSeq clip_duration notes).map stoi).take max_tokens ++
        List.replicate
          (max_tokens - (noteWordSeq clip_duration notes).length) 0 ∧
    (note2TokenCall stoi max_tokens clip_duration notes).mask =
      (((noteWordSeq clip_duration notes).map stoi).map
          (fun _ => (1 : ℤ))).take max_tokens ++
        List.replicate
          (max_tokens - (noteWordSeq clip_duration notes).length) 0 := by
  refine ⟨?_, ?_, ?_, ?_, ?_⟩ <;>
    simp [note2TokenCall, fix_length_eq, List.length_map] <;> omega

/-- C10: if `PianoRoll.__call__` raises (on any input), the caller's
record is unchanged: `data.update(...)` runs only after the whole note
loop, so none of the five output fields is added. -/
theorem error_leaves_record (fps pitches_num : ℕ) (soft_target : Bool)
    (data : Record)
    (h : (pianoRollRun fps pitches_num soft_target data).2.isSome = true) :
    (pianoRollRun fps pitches_num soft_target data).1 = data := by
  cases soft_target with
  | true => rfl
  | false =>
    unfold pianoRollRun at h ⊢
    rw [if_neg Bool.false_ne_true] at h ⊢
    cases hp : processNotes fps data.clip_duration
        (pyRound ((fps : ℚ) * data.clip_duration) + 1) data.start_time
        zeroSt data.note with
    | error e => rfl
    | ok st => rw [hp] at h; exact Bool.noConfusion h

/-- Witness for C10's theorem: a record holding one reversed note (onset
0.5s, offset 0.25s) makes the call raise, and the record comes back
exactly as it went in. -/
theorem error_leaves_record_witness :
    (pianoRollRun 100 128 false
      { note := [{ pitch := 60, start := 1/2, «end» := 1/4, velocity := 100 }],
        pedal := [], start_time := 0, clip_duration := 1,
        onset_roll := none, offset_roll := none, frame_roll := none,
        velocity_roll := none, clip_note := none }).1 =
      { note := [{ pitch := 60, start := 1/2, «end» := 1/4, velocity := 100 }],
        pedal := [], start_time := 0, clip_duration := 1,
        onset_roll := none, offset_roll := none, frame_roll := none,
        velocity_roll := none, clip_note := none } := by
  apply error_leaves_record
  simp only [pianoRollRun, processNotes, processNote]
  norm_num

end Audidata
